import Mathlib

/-!
Shallow embedding of the OpenWebUI R2R retrieval pipe and tool
(src/r2rpipe.py and src/r2rtool.py) and proofs about it.

Python strings are modelled as lists of characters.  The ASCII fragment
of Python whitespace stripping and of the digit test is modelled; the
data the claims quantify over never leaves this fragment.  Python floats
are modelled as exact rationals, which is order-faithful for the
relevance scores involved.  Python dictionaries are association lists
with unique keys.  Network effects are modelled by oracles supplied in
an environment record, and each run of an entry point returns its
outcome together with the list of network calls it issued, in order.
-/

abbrev Str := List Char

/-- Python str.strip(chars): drop characters of the set cs from both ends. -/
def pyDropSet (cs : List Char) (s : Str) : Str := s.dropWhile (fun c => cs.contains c)

def pyStripChars (cs : List Char) (s : Str) : Str :=
  ((pyDropSet cs s).reverse.dropWhile (fun c => cs.contains c)).reverse

/-- Python str.strip(): whitespace removed from both ends. -/
def pyStrip (s : Str) : Str :=
  ((s.dropWhile Char.isWhitespace).reverse.dropWhile Char.isWhitespace).reverse

/-- Python str.rstrip(chars). -/
def pyRstrip (cs : List Char) (s : Str) : Str :=
  (s.reverse.dropWhile (fun c => cs.contains c)).reverse

/-- Python str.lstrip(chars). -/
def pyLstrip (cs : List Char) (s : Str) : Str := s.dropWhile (fun c => cs.contains c)

/-- Python str.startswith. -/
def strPfx : Str → Str → Bool
  | [], _ => true
  | _ :: _, [] => false
  | a :: as, b :: bs => a == b && strPfx as bs

/-- Indices at which the pattern p occurs in s. -/
def occList (p s : Str) : List Nat :=
  (List.range (s.length + 1)).filter (fun i => strPfx p (s.drop i))

/-- Python substring containment, the in operator on strings. -/
def containsSubstr (p s : Str) : Bool := !(occList p s).isEmpty

/-- Python s.find(p, start): the least occurrence index that is at least start,
or nothing when there is none. -/
def findFrom (p s : Str) (start : Nat) : Option Nat :=
  ((occList p s).filter (fun i => decide (start ≤ i))).head?

/-- The suffix of s after the last occurrence of p.  This models Python
s.split(p).getLast for the separators used in the sources, which cannot
overlap themselves, so that every occurrence is a split point and the final
split segment is the text after the occurrence of largest index. -/
def lastOccSuffix (p s : Str) : Option Str :=
  ((occList p s).getLast?).map (fun i => s.drop (i + p.length))

/-- Python s.replace(p, empty): remove every occurrence of p, scanning left
to right.  Fuel-based so that it reduces inside the kernel; the wrapper
removeAll supplies sufficient fuel. -/
def removeAllGo (p : Str) : Nat → Str → Str
  | _, [] => []
  | 0, s => s
  | fuel + 1, c :: rest =>
    if 0 < p.length && strPfx p (c :: rest) then removeAllGo p fuel (rest.drop (p.length - 1))
    else c :: removeAllGo p fuel rest

def removeAll (p s : Str) : Str := removeAllGo p s.length s

/-- Python values as they occur in the JSON and directory data handled by
the sources. -/
inductive PVal where
  | str : Str → PVal
  | bytes : List Nat → PVal
  | int : Int → PVal
  | rat : ℚ → PVal
  | bool : Bool → PVal
  | none : PVal
  | list : List PVal → PVal
  | dict : List (Str × PVal) → PVal

/-- Python dict lookup; the dictionaries modelled here have unique keys. -/
def dictGet (d : List (Str × PVal)) (k : Str) : Option PVal :=
  (d.find? (fun kv => kv.1 == k)).map (fun kv => kv.2)

/-- Python truthiness. -/
def pvalFalsy : PVal → Bool
  | .str s => s.isEmpty
  | .bytes b => b.isEmpty
  | .int n => n == 0
  | .rat q => decide (q = 0)
  | .bool b => !b
  | .none => true
  | .list l => l.isEmpty
  | .dict d => d.isEmpty

/-- Python slice s.take k for an integer k; a negative k counts from the end. -/
def pySliceTo (s : Str) (k : Int) : Str :=
  if k < 0 then s.take ((s.length : Int) + k).toNat else s.take k.toNat

/-- The helper that truncates text, from src/r2rpipe.py lines 28-31 and
src/r2rtool.py lines 22-25: the string unchanged when it fits, otherwise
its first n - 3 characters followed by a three-character ellipsis. -/
def pyTruncate (s : Str) (n : Int) : Str :=
  if (s.length : Int) ≤ n then s else pySliceTo s (n - 3) ++ "...".toList

/-- Python str.isdigit on the ASCII fragment: non-empty and all digits. -/
def pyIsDigit (s : Str) : Bool := !s.isEmpty && s.all Char.isDigit

def citationPrimaryKeys : List Str := ["title".toList, "source".toList, "filename".toList]

def citationFallbackKeys : List Str := ["file_name".toList, "name".toList, "document_id".toList]

/-- One probe of the citation lookup: the value under key k when it is a
string with non-blank content, whitespace-trimmed. -/
def nonBlankStrAt (d : List (Str × PVal)) (k : Str) : Option Str :=
  match dictGet d k with
  | some (.str s) => if (pyStrip s).isEmpty then Option.none else some (pyStrip s)
  | _ => Option.none

/-- The citation identifier, from src/r2rpipe.py lines 34-49 and
src/r2rtool.py lines 28-45: first non-blank string among title, source,
filename, then among file_name, name, document_id, else Unknown. -/
def getCitationIdentifier (meta : PVal) : Str :=
  match meta with
  | .dict d =>
    match citationPrimaryKeys.findSome? (nonBlankStrAt d) with
    | some v => v
    | Option.none =>
      match citationFallbackKeys.findSome? (nonBlankStrAt d) with
      | some v => v
      | Option.none => "Unknown".toList
  | _ => "Unknown".toList

/-- The citation rule as the claim words it: a single combined priority list. -/
def citationIdentifierSpec (meta : PVal) : Str :=
  match meta with
  | .dict d =>
    match (citationPrimaryKeys ++ citationFallbackKeys).findSome? (nonBlankStrAt d) with
    | some v => v
    | Option.none => "Unknown".toList
  | _ => "Unknown".toList

def filenameKey : Str := "filename".toList

def defaultPat : Str := "files__default:".toList

def filesPat : Str := "files_".toList

/-- The two fallback patterns of the file-id extraction, src/r2rpipe.py
lines 69-75: a files_ lead followed by digits, or an all-digit filename. -/
def extractFallbackPatterns (f : Str) : Except Unit (Option Str) :=
  if strPfx filesPat f && pyIsDigit (f.drop 6) then .ok (some (f.drop 6))
  else if pyIsDigit f then .ok (some f)
  else .ok Option.none

/-- The body of the file-id extraction applied to the filename value of
the metadata, src/r2rpipe.py lines 57-75.  The result is an Except
because a truthy non-string filename value makes the Python code raise
before returning: the in test raises a TypeError on most non-string
operands, and the later startswith attribute access raises on the rest.
A falsy value of any type returns nothing at once. -/
def extractFromFilenameVal (fv : PVal) : Except Unit (Option Str) :=
  match fv with
  | .str f =>
    if f.isEmpty then .ok Option.none
    else
      if containsSubstr defaultPat f then
        match lastOccSuffix defaultPat f with
        | some suf =>
          if pyIsDigit (pyStrip suf) then .ok (some (pyStrip suf))
          else extractFallbackPatterns f
        | Option.none => extractFallbackPatterns f
      else extractFallbackPatterns f
  | fv => if pvalFalsy fv then .ok Option.none else .error ()

/-- The function _extract_nextcloud_file_id, src/r2rpipe.py lines 52-75:
nothing for
non-dict metadata, otherwise the body above on the filename entry with an
empty-string default. -/
def extractNextcloudFileId (metadata : PVal) : Except Unit (Option Str) :=
  match metadata with
  | .dict d => extractFromFilenameVal ((dictGet d filenameKey).getD (.str []))
  | _ => .ok Option.none

/-- The link the pipe assembles from a file id, src/r2rpipe.py line 472:
the base URL with trailing slashes removed, a /f/ segment, and the id. -/
def mkNextcloudLink (base fid : Str) : Str :=
  pyRstrip ['/'] base ++ "/f/".toList ++ fid

/-- The citation-identifier fallback link of the tool, src/r2rtool.py
lines 734-737: when no pattern link exists and the citation identifier is
truthy, contains a slash or a dot, and does not start with http, the tool
links the identifier itself. -/
def toolLinkFallback (base cid : Str) : Option Str :=
  if !cid.isEmpty && (cid.contains '/' || cid.contains '.') && !strPfx "http".toList cid then
    some (pyRstrip ['/'] base ++ "/f/".toList ++ pyLstrip ['/'] cid)
  else Option.none

/-- The inline link derivation of the tool, src/r2rtool.py lines 714-737:
only the files__default pattern produces a file id, and the citation
fallback above may still produce a link.  Returns the pair of the optional
file id and the optional link; an Except because a truthy non-string
filename or a non-dict metadata value makes the Python code raise. -/
def toolDeriveLink (base : Str) (metadata : PVal) : Except Unit (Option Str × Option Str) :=
  match metadata with
  | .dict d =>
    let citationId := getCitationIdentifier (.dict d)
    match (dictGet d filenameKey).getD (.str []) with
    | .str f =>
      let patternHit : Option Str :=
        if !f.isEmpty && containsSubstr defaultPat f then
          match lastOccSuffix defaultPat f with
          | some suf => if pyIsDigit (pyStrip suf) then some (pyStrip suf) else Option.none
          | Option.none => Option.none
        else Option.none
      match patternHit with
      | some fid => .ok (some fid, some (pyRstrip ['/'] base ++ "/f/".toList ++ fid))
      | Option.none => .ok (Option.none, toolLinkFallback base citationId)
    | fv =>
      if pvalFalsy fv then .ok (Option.none, toolLinkFallback base citationId)
      else .error ()
  | _ => .error ()

def hexDigitChar (k : Nat) : Char := if k < 10 then Char.ofNat (48 + k) else Char.ofNat (87 + k)

/-- Two lowercase hex digits of a byte. -/
def byteHex (n : Nat) : Str := [hexDigitChar (n / 16 % 16), hexDigitChar (n % 16)]

/-- Lowercase hex expansion of a byte string, most significant first. -/
def bytesHex : List Nat → Str
  | [] => []
  | n :: rest => byteHex n ++ bytesHex rest

/-- The sixteen lowercase hex digit characters. -/
def hexCharset : Str := "0123456789abcdef".toList

def dash : Char := '-'

/-- The canonical hyphenated rendering of 32 hex digits, as produced by the
str conversion of a Python UUID: groups of 8, 4, 4, 4 and 12 digits. -/
def uuidCanonical (h : Str) : Str :=
  h.take 8 ++ dash :: ((h.drop 8).take 4 ++ dash :: ((h.drop 12).take 4 ++ dash ::
    ((h.drop 16).take 4 ++ dash :: h.drop 20)))

/-- Python uuid.UUID(bytes=b) followed by str: defined exactly for 16-byte
values (anything else raises a ValueError). -/
def uuidFromBytes (b : List Nat) : Option Str :=
  if b.length = 16 then some (uuidCanonical (bytesHex b)) else Option.none

def isHexChar (c : Char) : Bool :=
  c.isDigit || (97 ≤ c.toNat && c.toNat ≤ 102) || (65 ≤ c.toNat && c.toNat ≤ 70)

def bracesChars : List Char := [Char.ofNat 123, Char.ofNat 125]

def urnPat : Str := "urn:".toList

def uuidPat : Str := "uuid:".toList

/-- Python uuid.UUID(hex=s) followed by str: remove urn: and uuid: markers,
strip braces, drop hyphens, and require 32 hex digits; the canonical
lowercase rendering of those digits results.  The exotic integer-literal
spellings Python int additionally tolerates (signs, underscores) are
outside this model. -/
def uuidFromHexStr (s : Str) : Option Str :=
  let h := (pyStripChars bracesChars (removeAll uuidPat (removeAll urnPat s))).filter
    (fun c => c != dash)
  if h.length = 32 && h.all isHexChar then some (uuidCanonical (h.map Char.toLower))
  else Option.none

def pyUpper (s : Str) : Str := s.map Char.toUpper

/-- Normalization of the directory GUID attribute value in the pipe,
src/r2rpipe.py lines 122-148: a byte value is decoded as a 16-byte UUID, a
string value is brace- and whitespace-stripped and parsed as UUID text, a
non-empty list defers to its first element when that is a string or byte
value; every other shape, and every parse failure, yields nothing.  A
ValueError from the byte decoding is caught by the enclosing handler of
the source and also yields nothing. -/
def normalizeGuidValue : PVal → Option Str
  | .bytes b => (uuidFromBytes b).map pyUpper
  | .str s => (uuidFromHexStr (pyStrip (pyStripChars bracesChars s))).map pyUpper
  | .list (x :: _) =>
    match x with
    | .str s => (uuidFromHexStr (pyStrip (pyStripChars bracesChars s))).map pyUpper
    | .bytes b => (uuidFromBytes b).map pyUpper
    | _ => Option.none
  | _ => Option.none

/-- Normalization of the GUID attribute value in the tool, src/r2rtool.py
lines 117-124: only a byte value is decoded; every other shape yields
nothing. -/
def normalizeGuidValueTool : PVal → Option Str
  | .bytes b => (uuidFromBytes b).map pyUpper
  | _ => Option.none

def threeDashes : Str := "---".toList

def pipeSepPat : Str := " | ".toList

def searchKeyPat : Str := "search:".toList

def instructionsKeyPat : Str := "instructions:".toList

def quoteChars : List Char := [Char.ofNat 34, Char.ofNat 39]

/-- The value a block line contributes: the line after its first k
characters, whitespace-stripped, then quote-stripped.  The search: branch
of the source uses k = 7, the length of its key; the instructions: branch
uses k = 12 although its key is 13 characters long (src/r2rpipe.py line
349, src/r2rtool.py line 372), so the leading colon survives. -/
def blockValue (l : Str) (k : Nat) : Str := pyStripChars quoteChars (pyStrip (l.drop k))

/-- One iteration of the block-parsing loop, src/r2rpipe.py lines 344-349:
each matching line overwrites the accumulator entry for its key. -/
def blockLineStep (acc : Option Str × Option Str) (line : Str) : Option Str × Option Str :=
  let l := pyStrip line
  if strPfx searchKeyPat l then (some (blockValue l 7), acc.2)
  else if strPfx instructionsKeyPat l then (acc.1, some (blockValue l 12))
  else acc

def extractBlockKeys (lines : List Str) : Option Str × Option Str :=
  lines.foldl blockLineStep (Option.none, Option.none)

/-- The value of the last search: line of the block, when there is one. -/
def lastSearchVal : List Str → Option Str
  | [] => Option.none
  | ln :: rest =>
    match lastSearchVal rest with
    | some v => some v
    | Option.none =>
      if strPfx searchKeyPat (pyStrip ln) then some (blockValue (pyStrip ln) 7) else Option.none

/-- The value of the last instructions: line of the block, when there is
one; as in the source, the value keeps the colon because of the short
slice. -/
def lastInstrVal : List Str → Option Str
  | [] => Option.none
  | ln :: rest =>
    match lastInstrVal rest with
    | some v => some v
    | Option.none =>
      if strPfx instructionsKeyPat (pyStrip ln) then some (blockValue (pyStrip ln) 12)
      else Option.none

/-- The shared structured-block and pipe-delimiter stages of input parsing,
src/r2rpipe.py lines 336-361 and src/r2rtool.py lines 357-386, applied to
the already-stripped input t.  The entry points differ only in the final
fallback, passed here as a function. -/
def parseCore (t : Str) (fallback : Str → Str × Option Str) : Str × Option Str :=
  let structured : Option (Str × Option Str) :=
    if strPfx threeDashes t then
      match findFrom threeDashes t 3 with
      | some j =>
        let content := pyStrip ((t.take j).drop 3)
        let r := extractBlockKeys (List.splitOn '\n' content)
        match r.1 with
        | some sq => if sq.isEmpty then Option.none else some (sq, r.2)
        | Option.none => Option.none
      | Option.none => Option.none
    else Option.none
  match structured with
  | some r => r
  | Option.none =>
    match findFrom pipeSepPat t 0 with
    | some j => (pyStrip (t.take j), some (pyStrip (t.drop (j + 3))))
    | Option.none => fallback t

/-- Input parsing of the pipe, src/r2rpipe.py lines 329-364: structured
block, then pipe delimiter, then the whole input as the query. -/
def parseUserInput (inputText : Str) : Str × Option Str :=
  let t := pyStrip inputText
  if t.isEmpty then ([], Option.none) else parseCore t (fun s => (s, Option.none))

/-- Input parsing of the tool, src/r2rtool.py lines 337-389: as the pipe,
but falling back to the natural-language pattern stage, which involves
regular-expression search and is abstracted here as a parameter (none of
the claims exercises it). -/
def toolParseUserInput (naturalParse : Str → Str × Option Str) (inputText : Str) :
    Str × Option Str :=
  let t := pyStrip inputText
  if t.isEmpty then ([], Option.none) else parseCore t naturalParse

/-- The configuration fields of the Valves models that the specified
pipeline stages read (both sources declare the same fields). -/
structure Valves where
  api_url : Str
  nextcloud_base_url : Str
  bearer_token : Str
  enforce_permissions : Bool
  use_hybrid_search : Bool
  search_limit : Int
  max_chunks_in_context : Nat
  max_chars_per_chunk : Int
  min_relevance_score : ℚ
deriving DecidableEq

/-- The filters member of the search settings; it renders as the JSON
object binding collection_ids to an object binding the in-operator key to
the list below (src/r2rpipe.py lines 380-382, src/r2rtool.py lines
617-619). -/
structure SearchFilters where
  collectionIdsIn : List Str
deriving DecidableEq

/-- The JSON body of a search request: query, hybrid toggle, clamped
limit, and the optional filters (src/r2rpipe.py lines 370-382,
src/r2rtool.py lines 607-619). -/
structure SearchPayload where
  query : Str
  useHybridSearch : Bool
  limit : Int
  filters : Option SearchFilters
deriving DecidableEq

/-- Payload construction is shared verbatim by both sources: the filter is
attached exactly when the collection id is truthy. -/
def mkSearchPayload (v : Valves) (q : Str) (ucid : Option Str) : SearchPayload :=
  ⟨q, v.use_hybrid_search, min v.search_limit 100,
    match ucid with
    | some s => if s.isEmpty then Option.none else some ⟨[s]⟩
    | Option.none => Option.none⟩

/-- A network request issued by a run: a directory lookup for an email, a
collection lookup for a GUID, or a search with a payload. -/
inductive NetCall where
  | ldap : Str → NetCall
  | collections : Str → NetCall
  | search : SearchPayload → NetCall
deriving DecidableEq

/-- The HTTP outcome of the tool search request, which inspects status
codes itself (src/r2rtool.py lines 629-664): a raised timeout, connection
or other request error, or a status with a JSON body that may fail to
parse. -/
inductive HttpResult where
  | timeout : HttpResult
  | connError : HttpResult
  | reqError : Str → HttpResult
  | resp : Nat → Except Unit PVal → HttpResult

/-- The environment supplies the responses of the collaborators.  The
directory and collection oracles return what _ldap_lookup_user_guid and
_get_collection_id_from_guid return: both swallow their own errors and
return nothing in every failure case (ldap3 is modelled as importable).
searchJson is the pipe view of the search call: a raised exception message
or the parsed JSON.  searchHttp is the tool view with explicit statuses. -/
structure Env where
  ldapGuid : Str → Option Str
  collectionId : Str → Option Str
  searchJson : SearchPayload → Except Str PVal
  searchHttp : SearchPayload → HttpResult

/-- The function _ldap_lookup_user_guid as seen by the orchestrators: a
falsy or blank
email returns nothing without a connection (src/r2rpipe.py lines 85-86);
otherwise one directory call is made and the oracle answers. -/
def lookupUserGuid (env : Env) (e : Str) : Option Str × List NetCall :=
  if e.isEmpty || (pyStrip e).isEmpty then (Option.none, [])
  else (env.ldapGuid e, [.ldap e])

/-- The function _get_collection_id_from_guid: a falsy GUID returns
nothing without a
request (src/r2rpipe.py lines 163-164); otherwise one collection call. -/
def lookupCollection (env : Env) (g : Str) : Option Str × List NetCall :=
  if g.isEmpty then (Option.none, []) else (env.collectionId g, [.collections g])

/-- Pipe._get_user_collection_id, src/r2rpipe.py lines 402-429: nothing
when enforcement is off, else the directory lookup followed, for a truthy
GUID, by the collection lookup. -/
def getUserCollectionId (v : Valves) (env : Env) (e : Str) : Option Str × List NetCall :=
  if !v.enforce_permissions then (Option.none, [])
  else
    match lookupUserGuid env e with
    | (Option.none, tr) => (Option.none, tr)
    | (some g, tr) =>
      if g.isEmpty then (Option.none, tr)
      else
        match lookupCollection env g with
        | (c, tr2) => (c, tr ++ tr2)

/-- The permission lookup of the tool, src/r2rtool.py lines 565-604: when
no email was found the tool merely logs and keeps no collection id; a
found email goes through the same two lookups, and no failure is fatal. -/
def toolLookupCollectionId (env : Env) (emailFound : Option Str) : Option Str × List NetCall :=
  match emailFound with
  | Option.none => (Option.none, [])
  | some e =>
    match lookupUserGuid env e with
    | (Option.none, tr) => (Option.none, tr)
    | (some g, tr) =>
      if g.isEmpty then (Option.none, tr)
      else
        match lookupCollection env g with
        | (c, tr2) => (c, tr ++ tr2)

/-- A message of the request body. -/
structure Msg where
  role : Str
  content : Str
deriving DecidableEq

/-- The query-length guard shared by both entry points (src/r2rpipe.py
line 567, src/r2rtool.py line 553): a falsy query, or fewer than three
characters once surrounding whitespace is stripped. -/
def shortQueryCheck (q : Str) : Bool := q.isEmpty || decide ((pyStrip q).length < 3)

/-- The terminal outcomes of Pipe.pipe, one constructor per distinct
user-visible message of src/r2rpipe.py lines 547-649.  success carries
what is handed to curation and the downstream model call; systemError is
the top-level catch-all. -/
inductive POutcome where
  | errNoMessages : POutcome
  | errNotUser : POutcome
  | errEmptyQuery : POutcome
  | errShortQuery : Str → POutcome
  | errNoToken : POutcome
  | accessDeniedNoUser : POutcome
  | accessDeniedNoCollection : Str → POutcome
  | searchError : Str → POutcome
  | noResults : Str → POutcome
  | success : Str → List PVal → Option Str → POutcome
  | systemError : POutcome

def resultsKey : Str := "results".toList

def chunkResultsKey : Str := "chunk_search_results".toList

/-- Normalization of the results envelope, shared by both sources
(src/r2rpipe.py lines 610-614, src/r2rtool.py lines 667-671): a dict
results member is probed for chunk_search_results, a list member is the
chunks, anything else is empty.  Nothing is returned for the shapes on
which the Python iteration or attribute access would raise, which the
callers turn into their catch-all outcome: a non-dict response body, or a
truthy non-list chunk container. -/
def extractChunks (data : PVal) : Option (List PVal) :=
  match data with
  | .dict top =>
    match (dictGet top resultsKey).getD (.dict []) with
    | .dict r =>
      match dictGet r chunkResultsKey with
      | Option.none => some []
      | some (.list l) => some l
      | some v => if pvalFalsy v then some [] else Option.none
    | .list l => some l
    | _ => some []
  | _ => Option.none

/-- The search leg of the pipe, src/r2rpipe.py lines 601-644: build the
payload, issue the one search request, and classify the response.
success carries the inputs of curation; the downstream model invocation
is a collaborator boundary. -/
def pipeSearchPhase (v : Valves) (env : Env) (sq : Str) (instr : Option Str)
    (ucid : Option Str) (tr : List NetCall) : POutcome × List NetCall :=
  let payload := mkSearchPayload v sq ucid
  let tr2 := tr ++ [.search payload]
  match env.searchJson payload with
  | .error msg => (.searchError msg, tr2)
  | .ok data =>
    match extractChunks data with
    | Option.none => (.systemError, tr2)
    | some [] => (.noResults sq, tr2)
    | some chunks => (.success sq chunks instr, tr2)

/-- Pipe.pipe, src/r2rpipe.py lines 547-644, as a function of the valves,
the environment, the message list and the optional user email.  The
permission lookup cannot raise in this model (its Python counterparts
swallow their exceptions), so the permission-check-failed branch of the
source is not reachable here. -/
def pipeRun (v : Valves) (env : Env) (messages : List Msg) (userEmail : Option Str) :
    POutcome × List NetCall :=
  match messages.getLast? with
  | Option.none => (.errNoMessages, [])
  | some m =>
    if m.role == "user".toList then
      let q0 := pyStrip m.content
      if q0.isEmpty then (.errEmptyQuery, [])
      else
        let p := parseUserInput q0
        if shortQueryCheck p.1 then (.errShortQuery p.1, [])
        else if (pyStrip v.bearer_token).isEmpty then (.errNoToken, [])
        else if v.enforce_permissions then
          match userEmail with
          | Option.none => (.accessDeniedNoUser, [])
          | some e =>
            if e.isEmpty || !e.contains '@' then (.accessDeniedNoUser, [])
            else
              match getUserCollectionId v env e with
              | (Option.none, tr) => (.accessDeniedNoCollection e, tr)
              | (some cid, tr) =>
                if cid.isEmpty then (.accessDeniedNoCollection e, tr)
                else pipeSearchPhase v env p.1 p.2 (some cid) tr
        else pipeSearchPhase v env p.1 p.2 Option.none []
    else (.errNotUser, [])

def scoreKey : Str := "score".toList

/-- chunk.get(score, 0.0), src/r2rpipe.py line 442 and src/r2rtool.py line
682: zero when the field is absent, the numeric value otherwise.  A chunk
that is not a dict, or a non-numeric score value, would make the Python
comparison raise; such chunks are outside the data the claims quantify
over and are given score zero here. -/
def chunkScore (c : PVal) : ℚ :=
  match c with
  | .dict d =>
    match dictGet d scoreKey with
    | Option.none => 0
    | some (.rat q) => q
    | some (.int n) => (n : ℚ)
    | some _ => 0
  | _ => 0

/-- The relevance filter, src/r2rpipe.py lines 439-443 and src/r2rtool.py
lines 680-684: keep the chunks whose score is at least the floor. -/
def filteredChunks (v : Valves) (chunks : List PVal) : List PVal :=
  chunks.filter (fun c => decide (v.min_relevance_score ≤ chunkScore c))

/-- The context selection, src/r2rpipe.py line 449 and src/r2rtool.py line
693: the first max_chunks_in_context of the filtered chunks. -/
def topChunks (v : Valves) (chunks : List PVal) : List PVal :=
  (filteredChunks v chunks).take v.max_chunks_in_context

/-- The terminal outcomes of Tools.r2r_search_context, one constructor per
distinct user-visible message of src/r2rtool.py lines 529-822.  There is
no access-denied constructor because the tool has no such return.
toolSuccess carries the selected chunks and instructions; its final
rendering and source emission are downstream of everything the claims
state.  toolFailed is the catch-all for shapes on which the Python body
raises. -/
inductive TOutcome where
  | errInvalidQuery : TOutcome
  | toolShortQuery : Str → TOutcome
  | toolNoToken : TOutcome
  | httpTimeout : TOutcome
  | httpConnError : TOutcome
  | httpReqError : Str → TOutcome
  | httpAuthFailed : TOutcome
  | httpForbidden : TOutcome
  | httpNotFound : TOutcome
  | httpStatusError : Nat → TOutcome
  | httpBadJson : TOutcome
  | toolNoResults : Str → TOutcome
  | toolNoRelevant : Str → TOutcome
  | toolSuccess : Str → List PVal → Option Str → TOutcome
  | toolFailed : TOutcome

/-- The search leg of the tool, src/r2rtool.py lines 606-693: one search
request, explicit status handling, JSON parsing, envelope normalization,
relevance filtering and selection. -/
def toolSearchPhase (v : Valves) (env : Env) (sq : Str) (instr : Option Str)
    (ucid : Option Str) (tr : List NetCall) : TOutcome × List NetCall :=
  let payload := mkSearchPayload v sq ucid
  let tr2 := tr ++ [.search payload]
  match env.searchHttp payload with
  | .timeout => (.httpTimeout, tr2)
  | .connError => (.httpConnError, tr2)
  | .reqError m => (.httpReqError m, tr2)
  | .resp st body =>
    if st = 401 then (.httpAuthFailed, tr2)
    else if st = 403 then (.httpForbidden, tr2)
    else if st = 404 then (.httpNotFound, tr2)
    else if 400 ≤ st then (.httpStatusError st, tr2)
    else
      match body with
      | .error _ => (.httpBadJson, tr2)
      | .ok data =>
        match extractChunks data with
        | Option.none => (.toolFailed, tr2)
        | some [] => (.toolNoResults sq, tr2)
        | some chunks =>
          let fc := filteredChunks v chunks
          if fc.isEmpty then (.toolNoRelevant sq, tr2)
          else (.toolSuccess sq (fc.take v.max_chunks_in_context) instr, tr2)

/-- Tools.r2r_search_context, src/r2rtool.py lines 529-822, as a function
of the valves, the environment, the abstracted natural-language parser,
the query string, and the user email as established by the JSON and
reflection based extraction of lines 567-596, abstracted to its result (a
found truthy email or nothing). -/
def toolRun (v : Valves) (env : Env) (naturalParse : Str → Str × Option Str)
    (query : Str) (emailFound : Option Str) : TOutcome × List NetCall :=
  if query.isEmpty then (.errInvalidQuery, [])
  else
    let p := toolParseUserInput naturalParse query
    if shortQueryCheck p.1 then (.toolShortQuery p.1, [])
    else if (pyStrip v.bearer_token).isEmpty then (.toolNoToken, [])
    else
      let r := if v.enforce_permissions then toolLookupCollectionId env emailFound
               else (Option.none, [])
      toolSearchPhase v env p.1 p.2 r.1 r.2

def emptyChunksResp : PVal := .dict [(resultsKey, .dict [(chunkResultsKey, .list [])])]

/-- An environment in which no directory GUID and no collection resolve
and every search succeeds with an empty chunk list. -/
def envUnresolved : Env :=
  ⟨fun _ => Option.none, fun _ => Option.none, fun _ => .ok emptyChunksResp,
   fun _ => .resp 200 (.ok emptyChunksResp)⟩

/-- An environment in which identity and collection resolution succeed. -/
def envResolved : Env :=
  ⟨fun _ => some "11111111-2222-3333-4444-555555555555".toList,
   fun _ => some "collection-9".toList, fun _ => .ok emptyChunksResp,
   fun _ => .resp 200 (.ok emptyChunksResp)⟩

/-- An environment in which the directory GUID resolves but the GUID
resolves to no collection. -/
def envGuidOnly : Env :=
  ⟨fun _ => some "11111111-2222-3333-4444-555555555555".toList,
   fun _ => Option.none, fun _ => .ok emptyChunksResp,
   fun _ => .resp 200 (.ok emptyChunksResp)⟩

/-- Example valves with permission enforcement off. -/
def vOpen : Valves :=
  ⟨"http://r2r/search".toList, "https://nc.example.com".toList, "tok".toList,
   false, true, 10, 8, 1200, 0⟩

/-- Example valves with permission enforcement on. -/
def vEnforced : Valves :=
  ⟨"http://r2r/search".toList, "https://nc.example.com".toList, "tok".toList,
   true, true, 10, 8, 1200, 0⟩

/-- Example valves with relevance floor one half. -/
def vFloor : Valves :=
  ⟨"http://r2r/search".toList, "https://nc.example.com".toList, "tok".toList,
   false, true, 10, 8, 1200, (1 : ℚ)/2⟩

/-- The identity stand-in for the abstracted natural-language parse stage:
the no-pattern-matched fallback of the source, returning the whole input. -/
def npIdentity : Str → Str × Option Str := fun t => (t, Option.none)

def exampleBase : Str := "https://nc.example.com".toList

def chunkLow : PVal := .dict [(scoreKey, .rat ((2 : ℚ)/5)), ("text".toList, .str "low".toList)]

def chunkHigh : PVal := .dict [(scoreKey, .rat ((7 : ℚ)/10)), ("text".toList, .str "high".toList)]

/-- The first pattern of the file-id extraction, stated as the claim
family words it: the filename contains the files__default: marker and the
whitespace-trimmed text after its last occurrence is all digits. -/
def patDefaultHit (f : Str) : Prop :=
  ∃ suf, lastOccSuffix defaultPat f = some suf ∧ pyIsDigit (pyStrip suf) = true

/-- The second pattern: a files_ lead whose remainder is all digits. -/
def patFilesHit (f : Str) : Prop := strPfx filesPat f = true ∧ pyIsDigit (f.drop 6) = true

/-- The third pattern: the filename itself is all digits. -/
def patDigitsHit (f : Str) : Prop := pyIsDigit f = true

/-- C9: for every string s and every budget n of at least 3 (every
configured budget is at least 100), truncation returns s unchanged when s
fits within n characters, and otherwise returns the first n - 3
characters of s followed by the 3-character ellipsis, with total length
exactly n; truncating abcdefghij to 5 yields ab followed by the
ellipsis. -/
theorem C9_truncation (s : Str) (n : Int) (h3 : 3 ≤ n) :
    ((s.length : Int) ≤ n → pyTruncate s n = s)
    ∧ (n < (s.length : Int) →
        pyTruncate s n = s.take (n - 3).toNat ++ "...".toList
        ∧ ((pyTruncate s n).length : Int) = n)
    ∧ pyTruncate "abcdefghij".toList 5 = "ab...".toList := by
  have hellipsis : ("...".toList).length = 3 := rfl
  refine ⟨fun hle => by simp [pyTruncate, hle], fun hlt => ?_, by decide⟩
  have hn : ¬ (s.length : Int) ≤ n := by omega
  have hform : pyTruncate s n = s.take (n - 3).toNat ++ "...".toList := by
    simp only [pyTruncate, if_neg hn, pySliceTo, if_neg (show ¬ (n - 3 < 0) by omega)]
  refine ⟨hform, ?_⟩
  rw [hform]
  rw [List.length_append, List.length_take, hellipsis]
  omega

theorem C9_truncation_witness : pyTruncate "abcdefghij".toList 5 = "ab...".toList :=
  (C9_truncation "abcdefghij".toList 5 (by decide)).2.2

/-- C7: for every metadata mapping the citation identifier is the first
non-empty string value among title, source, filename, file_name, name,
document_id in that order, whitespace-trimmed, and Unknown when none of
these keys holds a non-empty string; for a mapping with title Policy Doc
the identifier is Policy Doc. -/
theorem C7_citation_identifier :
    (∀ meta : PVal, getCitationIdentifier meta = citationIdentifierSpec meta)
    ∧ getCitationIdentifier (.dict [("title".toList, .str "Policy Doc".toList)])
        = "Policy Doc".toList
    ∧ getCitationIdentifier (.dict [("author".toList, .str "A".toList)]) = "Unknown".toList
    ∧ getCitationIdentifier
        (.dict [("title".toList, .str "  ".toList), ("name".toList, .str " n1 ".toList)])
        = "n1".toList := by
  refine ⟨fun meta => ?_, by decide, by decide, by decide⟩
  cases meta <;> simp only [getCitationIdentifier, citationIdentifierSpec]
  rw [List.findSome?_append]
  cases citationPrimaryKeys.findSome? (nonBlankStrAt _) <;> simp [Option.or]

/-- C6: curation excludes exactly the chunks whose score (zero when the
field is absent) is strictly below the configured floor, and the
exclusion happens before truncation to the maximum context chunk count;
with floor one half, a chunk scored two fifths is dropped and a chunk
scored seven tenths is retained. -/
theorem C6_relevance_floor :
    (∀ (v : Valves) (chunks : List PVal),
        filteredChunks v chunks
          = chunks.filter (fun c => !decide (chunkScore c < v.min_relevance_score))
        ∧ topChunks v chunks = (filteredChunks v chunks).take v.max_chunks_in_context)
    ∧ chunkScore (.dict []) = 0
    ∧ filteredChunks vFloor [chunkLow, chunkHigh] = [chunkHigh]
    ∧ topChunks vFloor [chunkLow, chunkHigh] = [chunkHigh] := by
  have hlow : decide (vFloor.min_relevance_score ≤ chunkScore chunkLow) = false := by
    rw [decide_eq_false_iff_not]
    show ¬ ((1 : ℚ)/2 ≤ 2/5)
    norm_num
  have hhigh : decide (vFloor.min_relevance_score ≤ chunkScore chunkHigh) = true := by
    rw [decide_eq_true_eq]
    show (1 : ℚ)/2 ≤ 7/10
    norm_num
  refine ⟨fun v chunks => ⟨?_, rfl⟩, rfl, ?_, ?_⟩
  · apply List.filter_congr
    intro c _
    by_cases h : v.min_relevance_score ≤ chunkScore c
    · simp [h, not_lt.mpr h]
    · simp [h, lt_of_not_le h]
  · simp [filteredChunks, List.filter_cons, hlow, hhigh]
  · simp [topChunks, filteredChunks, List.filter_cons, hlow, hhigh]
    show 1 ≤ 8
    omega

theorem fallback_ok_digits (f : Str) (r : Option Str)
    (h : extractFallbackPatterns f = .ok r) :
    r = Option.none ∨ ∃ d, r = some d ∧ d ≠ [] ∧ d.all Char.isDigit = true := by
  unfold extractFallbackPatterns at h
  split at h
  · rename_i hcond
    rw [Bool.and_eq_true] at hcond
    have hd := hcond.2
    rw [pyIsDigit, Bool.and_eq_true] at hd
    injection h with h2
    right
    refine ⟨f.drop 6, h2.symm, ?_, hd.2⟩
    simpa using hd.1
  · split at h
    · rename_i hcond
      rw [pyIsDigit, Bool.and_eq_true] at hcond
      injection h with h2
      right
      refine ⟨f, h2.symm, ?_, hcond.2⟩
      simpa using hcond.1
    · injection h with h2
      left
      exact h2.symm

theorem extractFromFilenameVal_ok_digits (fv : PVal) (r : Option Str)
    (h : extractFromFilenameVal fv = .ok r) :
    r = Option.none ∨ ∃ d, r = some d ∧ d ≠ [] ∧ d.all Char.isDigit = true := by
  cases fv with
  | str f =>
    simp only [extractFromFilenameVal] at h
    split at h
    · exact Or.inl (Except.ok.inj h).symm
    · split at h
      · split at h
        · rename_i suf _
          split at h
          · rename_i hd
            rw [pyIsDigit, Bool.and_eq_true] at hd
            right
            refine ⟨pyStrip suf, (Except.ok.inj h).symm, ?_, hd.2⟩
            simpa using hd.1
          · exact fallback_ok_digits f r h
        · exact fallback_ok_digits f r h
      · exact fallback_ok_digits f r h
  | bytes b =>
    simp only [extractFromFilenameVal] at h
    split at h
    · exact Or.inl (Except.ok.inj h).symm
    · exact Except.noConfusion h
  | int n =>
    simp only [extractFromFilenameVal] at h
    split at h
    · exact Or.inl (Except.ok.inj h).symm
    · exact Except.noConfusion h
  | rat q =>
    simp only [extractFromFilenameVal] at h
    split at h
    · exact Or.inl (Except.ok.inj h).symm
    · exact Except.noConfusion h
  | bool b =>
    simp only [extractFromFilenameVal] at h
    split at h
    · exact Or.inl (Except.ok.inj h).symm
    · exact Except.noConfusion h
  | none => exact Or.inl (Except.ok.inj h).symm
  | list l =>
    simp only [extractFromFilenameVal] at h
    split at h
    · exact Or.inl (Except.ok.inj h).symm
    · exact Except.noConfusion h
  | dict d2 =>
    simp only [extractFromFilenameVal] at h
    split at h
    · exact Or.inl (Except.ok.inj h).symm
    · exact Except.noConfusion h

theorem extract_ok_digits (m : PVal) (r : Option Str)
    (h : extractNextcloudFileId m = .ok r) :
    r = Option.none ∨ ∃ d, r = some d ∧ d ≠ [] ∧ d.all Char.isDigit = true := by
  cases m with
  | dict d => exact extractFromFilenameVal_ok_digits _ r h
  | str s => exact Or.inl (Except.ok.inj h).symm
  | bytes b => exact Or.inl (Except.ok.inj h).symm
  | int n => exact Or.inl (Except.ok.inj h).symm
  | rat q => exact Or.inl (Except.ok.inj h).symm
  | bool b => exact Or.inl (Except.ok.inj h).symm
  | none => exact Or.inl (Except.ok.inj h).symm
  | list l => exact Or.inl (Except.ok.inj h).symm

/-- C10: whenever the file-id extraction returns rather than raising, the
result is nothing or a non-empty string of digit characters; the three
accepted forms are a files__default: marker followed by digits, a files_
lead followed by digits, and a bare digit string; hence every link the
pipe builds from such a result is the rstripped base, a /f/ segment and
digits only. -/
theorem C10_extract_digits_invariant (m : PVal) (r : Option Str)
    (h : extractNextcloudFileId m = .ok r) :
    (r = Option.none ∨ ∃ d, r = some d ∧ d ≠ [] ∧ d.all Char.isDigit = true
        ∧ ∀ base, mkNextcloudLink base d = pyRstrip ['/'] base ++ ("/f/".toList ++ d))
    ∧ extractNextcloudFileId (.dict [(filenameKey, .str "files__default:8060008".toList)])
        = .ok (some "8060008".toList)
    ∧ extractNextcloudFileId (.dict [(filenameKey, .str "files_777".toList)])
        = .ok (some "777".toList)
    ∧ extractNextcloudFileId (.dict [(filenameKey, .str "42".toList)])
        = .ok (some "42".toList) := by
  refine ⟨?_, rfl, rfl, rfl⟩
  rcases extract_ok_digits m r h with h1 | ⟨d, hd, hne, hdig⟩
  · exact Or.inl h1
  · exact Or.inr ⟨d, hd, hne, hdig, fun base => by
      simp [mkNextcloudLink, List.append_assoc]⟩

theorem C10_extract_digits_invariant_witness :
    ((some "42".toList : Option Str) = Option.none
      ∨ ∃ d, (some "42".toList : Option Str) = some d ∧ d ≠ []
          ∧ d.all Char.isDigit = true
          ∧ ∀ base, mkNextcloudLink base d = pyRstrip ['/'] base ++ ("/f/".toList ++ d))
    ∧ extractNextcloudFileId (.dict [(filenameKey, .str "files__default:8060008".toList)])
        = .ok (some "8060008".toList)
    ∧ extractNextcloudFileId (.dict [(filenameKey, .str "files_777".toList)])
        = .ok (some "777".toList)
    ∧ extractNextcloudFileId (.dict [(filenameKey, .str "42".toList)])
        = .ok (some "42".toList) :=
  C10_extract_digits_invariant (.dict [(filenameKey, .str "42".toList)])
    (some "42".toList) rfl

theorem lastOccSuffix_of_contains (p s : Str) (h : containsSubstr p s = true) :
    ∃ suf, lastOccSuffix p s = some suf := by
  rw [containsSubstr, Bool.not_eq_true', List.isEmpty_eq_false] at h
  cases hg : (occList p s).getLast? with
  | none => exact absurd (List.getLast?_eq_none_iff.mp hg) h
  | some i => exact ⟨s.drop (i + p.length), by rw [lastOccSuffix, hg]; rfl⟩

theorem lastOccSuffix_none_of_not_contains (p s : Str) (h : containsSubstr p s = false) :
    lastOccSuffix p s = Option.none := by
  rw [containsSubstr, Bool.not_eq_false'] at h
  rw [lastOccSuffix, List.getLast?_eq_none_iff.mpr (List.isEmpty_iff.mp h)]
  rfl

theorem fallback_some_iff (f : Str) :
    (∃ d, extractFallbackPatterns f = .ok (some d)) ↔ (patFilesHit f ∨ patDigitsHit f) := by
  unfold extractFallbackPatterns patFilesHit patDigitsHit
  constructor
  · rintro ⟨d, hd⟩
    split at hd
    · rename_i hc
      rw [Bool.and_eq_true] at hc
      exact Or.inl hc
    · split at hd
      · rename_i hc
        exact Or.inr hc
      · exact Option.noConfusion (Except.ok.inj hd)
  · intro hc
    rcases hc with ⟨h1, h2⟩ | h1
    · exact ⟨f.drop 6, by simp [h1, h2]⟩
    · by_cases hp : strPfx filesPat f && pyIsDigit (f.drop 6)
      · exact ⟨f.drop 6, by simp [hp]⟩
      · exact ⟨f, by simp [hp, h1]⟩

theorem extract_str_some_iff (f : Str) :
    (∃ d, extractFromFilenameVal (.str f) = .ok (some d))
      ↔ (patDefaultHit f ∨ patFilesHit f ∨ patDigitsHit f) := by
  cases hemp : f.isEmpty with
  | true =>
    have hf : f = [] := List.isEmpty_iff.mp hemp
    subst hf
    constructor
    · rintro ⟨d, hd⟩
      simp only [extractFromFilenameVal] at hd
      exact Option.noConfusion (Except.ok.inj hd)
    · rintro (⟨suf, hsuf, _⟩ | ⟨h1, _⟩ | h1)
      · rw [show lastOccSuffix defaultPat ([] : Str) = Option.none from rfl] at hsuf
        exact Option.noConfusion hsuf
      · exact absurd h1 (by decide)
      · exact absurd h1 (by unfold patDigitsHit; decide)
  | false =>
    cases hcont : containsSubstr defaultPat f with
    | true =>
      obtain ⟨suf, hsuf⟩ := lastOccSuffix_of_contains _ _ hcont
      cases hdig : pyIsDigit (pyStrip suf) with
      | true =>
        constructor
        · intro _
          exact Or.inl ⟨suf, hsuf, hdig⟩
        · intro _
          exact ⟨pyStrip suf, by simp [extractFromFilenameVal, hemp, hcont, hsuf, hdig]⟩
      | false =>
        have hpd : ¬ patDefaultHit f := by
          rintro ⟨suf2, hsuf2, hdig2⟩
          rw [hsuf] at hsuf2
          rw [Option.some.inj hsuf2] at hdig
          rw [hdig2] at hdig
          exact Bool.noConfusion hdig
        constructor
        · rintro ⟨d, hd⟩
          simp only [extractFromFilenameVal, hemp, hcont, hsuf, hdig, Bool.false_eq_true,
            if_false, if_true] at hd
          rcases (fallback_some_iff f).mp ⟨d, hd⟩ with h | h
          · exact Or.inr (Or.inl h)
          · exact Or.inr (Or.inr h)
        · rintro (hpdf | h | h)
          · exact absurd hpdf hpd
          · obtain ⟨d, hd⟩ := (fallback_some_iff f).mpr (Or.inl h)
            exact ⟨d, by simp [extractFromFilenameVal, hemp, hcont, hsuf, hdig, hd]⟩
          · obtain ⟨d, hd⟩ := (fallback_some_iff f).mpr (Or.inr h)
            exact ⟨d, by simp [extractFromFilenameVal, hemp, hcont, hsuf, hdig, hd]⟩
    | false =>
      have hpd : ¬ patDefaultHit f := by
        rintro ⟨suf2, hsuf2, _⟩
        rw [lastOccSuffix_none_of_not_contains _ _ hcont] at hsuf2
        exact Option.noConfusion hsuf2
      constructor
      · rintro ⟨d, hd⟩
        simp only [extractFromFilenameVal, hemp, hcont, Bool.false_eq_true, if_false] at hd
        rcases (fallback_some_iff f).mp ⟨d, hd⟩ with h | h
        · exact Or.inr (Or.inl h)
        · exact Or.inr (Or.inr h)
      · rintro (hpdf | h | h)
        · exact absurd hpdf hpd
        · obtain ⟨d, hd⟩ := (fallback_some_iff f).mpr (Or.inl h)
          exact ⟨d, by simp [extractFromFilenameVal, hemp, hcont, hd]⟩
        · obtain ⟨d, hd⟩ := (fallback_some_iff f).mpr (Or.inr h)
          exact ⟨d, by simp [extractFromFilenameVal, hemp, hcont, hd]⟩

/-- C3 counterexample: the filename 8060008 does not contain the
files__default: marker, yet the extraction derives the file id 8060008,
from which the pipe builds a link; so a link is derived for a filename
that does not match the claimed exclusive pattern.  The tool side
likewise links report.pdf through its citation fallback even though that
filename matches no files__default: pattern. -/
theorem C3_counterexample :
    containsSubstr defaultPat "8060008".toList = false
    ∧ extractNextcloudFileId (.dict [(filenameKey, .str "8060008".toList)])
        = .ok (some "8060008".toList)
    ∧ mkNextcloudLink exampleBase "8060008".toList
        = "https://nc.example.com/f/8060008".toList
    ∧ containsSubstr defaultPat "report.pdf".toList = false
    ∧ toolDeriveLink exampleBase (.dict [(filenameKey, .str "report.pdf".toList)])
        = .ok (Option.none, some "https://nc.example.com/f/report.pdf".toList) := by
  refine ⟨by decide, rfl, by decide, by decide, rfl⟩

/-- C3 amended: in the pipe, a file id (and hence a link) is derived from
a string filename exactly when one of three patterns matches: the
whitespace-trimmed text after the last files__default: occurrence is all
digits, or a files_ lead is followed by digits, or the filename itself is
all digits; the derived link is the rstripped base plus /f/ plus the
digits.  report.pdf gets no id in the pipe; the tool, which implements
only the files__default: pattern inline, additionally falls back to
linking any citation identifier containing a slash or dot that does not
start with http, so report.pdf does get a tool link. -/
theorem C3_link_patterns_amended :
    (∀ f : Str,
        (∃ d, extractNextcloudFileId (.dict [(filenameKey, .str f)]) = .ok (some d))
        ↔ (patDefaultHit f ∨ patFilesHit f ∨ patDigitsHit f))
    ∧ extractNextcloudFileId (.dict [(filenameKey, .str "files__default:8060008".toList)])
        = .ok (some "8060008".toList)
    ∧ (∀ base, mkNextcloudLink base "8060008".toList
        = pyRstrip ['/'] base ++ "/f/8060008".toList)
    ∧ extractNextcloudFileId (.dict [(filenameKey, .str "report.pdf".toList)])
        = .ok Option.none
    ∧ toolDeriveLink exampleBase (.dict [(filenameKey, .str "files__default:8060008".toList)])
        = .ok (some "8060008".toList, some "https://nc.example.com/f/8060008".toList) := by
  refine ⟨fun f => extract_str_some_iff f, rfl, fun base => ?_, rfl, rfl⟩
  rw [mkNextcloudLink, List.append_assoc]
  exact congrArg _ (by decide)

theorem key_pfx_exclusive (l : Str) (h1 : strPfx searchKeyPat l = true)
    (h2 : strPfx instructionsKeyPat l = true) : False := by
  rw [show searchKeyPat = 's' :: "earch:".toList from rfl] at h1
  rw [show instructionsKeyPat = 'i' :: "nstructions:".toList from rfl] at h2
  cases l with
  | nil => exact Bool.noConfusion h1
  | cons c cs =>
    rw [strPfx, Bool.and_eq_true] at h1 h2
    have e1 : 's' = c := by simpa using h1.1
    have e2 : 'i' = c := by simpa using h2.1
    exact absurd (e2.trans e1.symm) (by decide)

theorem blockFold_eq (lines : List Str) (acc : Option Str × Option Str) :
    lines.foldl blockLineStep acc
      = ((lastSearchVal lines).or acc.1, (lastInstrVal lines).or acc.2) := by
  induction lines generalizing acc with
  | nil => simp [lastSearchVal, lastInstrVal]
  | cons ln rest ih =>
    rw [List.foldl_cons, ih, lastSearchVal, lastInstrVal]
    cases hs : lastSearchVal rest with
    | some v =>
      cases hi : lastInstrVal rest with
      | some w => simp [blockLineStep]
      | none =>
        by_cases hsp : strPfx searchKeyPat (pyStrip ln) = true
        · have hip : ¬ strPfx instructionsKeyPat (pyStrip ln) = true :=
            fun h => key_pfx_exclusive _ hsp h
          simp [blockLineStep, hsp, hip]
        · by_cases hip : strPfx instructionsKeyPat (pyStrip ln) = true
          · simp [blockLineStep, hsp, hip]
          · simp [blockLineStep, hsp, hip]
    | none =>
      cases hi : lastInstrVal rest with
      | some w =>
        by_cases hsp : strPfx searchKeyPat (pyStrip ln) = true
        · have hip : ¬ strPfx instructionsKeyPat (pyStrip ln) = true :=
            fun h => key_pfx_exclusive _ hsp h
          simp [blockLineStep, hsp, hip]
        · by_cases hip : strPfx instructionsKeyPat (pyStrip ln) = true
          · simp [blockLineStep, hsp, hip]
          · simp [blockLineStep, hsp, hip]
      | none =>
        by_cases hsp : strPfx searchKeyPat (pyStrip ln) = true
        · have hip : ¬ strPfx instructionsKeyPat (pyStrip ln) = true :=
            fun h => key_pfx_exclusive _ hsp h
          simp [blockLineStep, hsp, hip]
        · by_cases hip : strPfx instructionsKeyPat (pyStrip ln) = true
          · simp [blockLineStep, hsp, hip]
          · simp [blockLineStep, hsp, hip]

/-- C8 counterexample: for a block with two search: lines, parsing returns
the value of the last line, beta, not the first non-empty value alpha;
and the extracted instructions value keeps a leading colon because the
source slices the line after 12 characters although the instructions: key
is 13 characters long. -/
theorem C8_counterexample :
    parseUserInput "---\nsearch: alpha\nsearch: beta\ninstructions: be brief\n---".toList
      = ("beta".toList, some ": be brief".toList)
    ∧ ("beta".toList : Str) ≠ "alpha".toList
    ∧ (": be brief".toList : Str) ≠ "be brief".toList :=
  ⟨by decide, by decide, by decide⟩

/-- C8 amended: within a structured block each key line overwrites the
previous one, so the extracted search text is the value of the last
search: line, whitespace- and quote-trimmed, and the extracted
instructions value is that of the last instructions: line, which keeps
its leading colon because the source slices off only 12 characters of the
13-character key; the block result is used only when the final search
value is non-empty.  A single quoted search: line is returned trimmed of
its surrounding quotes. -/
theorem C8_block_extraction_amended :
    (∀ lines : List Str, extractBlockKeys lines = (lastSearchVal lines, lastInstrVal lines))
    ∧ parseUserInput ("---\nsearch: ".toList ++ Char.ofNat 34 :: "cats and dogs".toList
        ++ [Char.ofNat 34] ++ "\n---".toList) = ("cats and dogs".toList, Option.none)
    ∧ parseUserInput "---\nsearch: alpha\nsearch: beta\n---".toList
        = ("beta".toList, Option.none)
    ∧ parseUserInput "---\nsearch: cats\ninstructions: be brief\n---".toList
        = ("cats".toList, some ": be brief".toList) := by
  refine ⟨fun lines => ?_, by decide, by decide, by decide⟩
  rw [extractBlockKeys, blockFold_eq]
  simp

theorem pipeSearchPhase_trace (v : Valves) (env : Env) (sq : Str) (instr : Option Str)
    (ucid : Option Str) (tr : List NetCall) :
    (pipeSearchPhase v env sq instr ucid tr).2 = tr ++ [.search (mkSearchPayload v sq ucid)] := by
  rw [pipeSearchPhase]
  repeat' split
  all_goals rfl

theorem toolSearchPhase_trace (v : Valves) (env : Env) (sq : Str) (instr : Option Str)
    (ucid : Option Str) (tr : List NetCall) :
    (toolSearchPhase v env sq instr ucid tr).2 = tr ++ [.search (mkSearchPayload v sq ucid)] := by
  rw [toolSearchPhase]
  repeat' split
  all_goals first
  | rfl
  | (dsimp only []; split <;> rfl)

theorem getUserCollectionId_resolved (v : Valves) (env : Env) (e g s : Str)
    (henf : v.enforce_permissions = true)
    (he1 : e.isEmpty = false) (he3 : (pyStrip e).isEmpty = false)
    (hg1 : env.ldapGuid e = some g) (hg2 : g.isEmpty = false)
    (hs1 : env.collectionId g = some s) :
    getUserCollectionId v env e = (some s, [.ldap e, .collections g]) := by
  rw [getUserCollectionId, lookupUserGuid]
  simp only [henf, Bool.not_true, Bool.false_eq_true, if_false, he1, he3, Bool.or_self,
    hg1, hg2, lookupCollection, hs1]
  rfl

theorem toolLookupCollectionId_resolved (env : Env) (e g s : Str)
    (he1 : e.isEmpty = false) (he3 : (pyStrip e).isEmpty = false)
    (hg1 : env.ldapGuid e = some g) (hg2 : g.isEmpty = false)
    (hs1 : env.collectionId g = some s) :
    toolLookupCollectionId env (some e) = (some s, [.ldap e, .collections g]) := by
  rw [toolLookupCollectionId, lookupUserGuid]
  simp only [he1, he3, Bool.or_self, Bool.false_eq_true, if_false, hg1, hg2,
    lookupCollection, hs1]
  rfl

theorem pipeRun_resolved (v : Valves) (env : Env) (messages : List Msg)
    (msg : Msg) (q : Str) (ins : Option Str) (e g s : Str)
    (hm : messages.getLast? = some msg) (hrole : msg.role = "user".toList)
    (h0 : (pyStrip msg.content).isEmpty = false)
    (hp : parseUserInput (pyStrip msg.content) = (q, ins))
    (hq : shortQueryCheck q = false)
    (htok : (pyStrip v.bearer_token).isEmpty = false)
    (henf : v.enforce_permissions = true)
    (he1 : e.isEmpty = false) (he2 : e.contains '@' = true)
    (he3 : (pyStrip e).isEmpty = false)
    (hg1 : env.ldapGuid e = some g) (hg2 : g.isEmpty = false)
    (hs1 : env.collectionId g = some s) (hs2 : s.isEmpty = false) :
    pipeRun v env messages (some e)
      = pipeSearchPhase v env q ins (some s) [.ldap e, .collections g] := by
  have he2m : '@' ∈ e := by simpa using he2
  rw [pipeRun, hm]
  simp [hrole, h0, hp, hq, htok, henf, he1, he2m, hs2,
    getUserCollectionId_resolved v env e g s henf he1 he3 hg1 hg2 hs1]

theorem pipeRun_denied_ldap (v : Valves) (env : Env) (messages : List Msg)
    (msg : Msg) (q : Str) (ins : Option Str) (e : Str)
    (hm : messages.getLast? = some msg) (hrole : msg.role = "user".toList)
    (h0 : (pyStrip msg.content).isEmpty = false)
    (hp : parseUserInput (pyStrip msg.content) = (q, ins))
    (hq : shortQueryCheck q = false)
    (htok : (pyStrip v.bearer_token).isEmpty = false)
    (henf : v.enforce_permissions = true)
    (he1 : e.isEmpty = false) (he2 : e.contains '@' = true)
    (he3 : (pyStrip e).isEmpty = false)
    (hgn : env.ldapGuid e = Option.none) :
    pipeRun v env messages (some e) = (.accessDeniedNoCollection e, [.ldap e]) := by
  have hlu : getUserCollectionId v env e = (Option.none, [.ldap e]) := by
    rw [getUserCollectionId, lookupUserGuid]
    simp [henf, he1, he3, hgn]
  have he2m : '@' ∈ e := by simpa using he2
  rw [pipeRun, hm]
  simp [hrole, h0, hp, hq, htok, henf, he1, he2m, hlu]

theorem pipeRun_denied_col (v : Valves) (env : Env) (messages : List Msg)
    (msg : Msg) (q : Str) (ins : Option Str) (e g : Str)
    (hm : messages.getLast? = some msg) (hrole : msg.role = "user".toList)
    (h0 : (pyStrip msg.content).isEmpty = false)
    (hp : parseUserInput (pyStrip msg.content) = (q, ins))
    (hq : shortQueryCheck q = false)
    (htok : (pyStrip v.bearer_token).isEmpty = false)
    (henf : v.enforce_permissions = true)
    (he1 : e.isEmpty = false) (he2 : e.contains '@' = true)
    (he3 : (pyStrip e).isEmpty = false)
    (hg1 : env.ldapGuid e = some g) (hg2 : g.isEmpty = false)
    (hcn : env.collectionId g = Option.none) :
    pipeRun v env messages (some e)
      = (.accessDeniedNoCollection e, [.ldap e, .collections g]) := by
  have hlu : getUserCollectionId v env e = (Option.none, [.ldap e, .collections g]) := by
    rw [getUserCollectionId, lookupUserGuid]
    simp [henf, he1, he3, hg1, hg2, lookupCollection, hcn]
  have he2m : '@' ∈ e := by simpa using he2
  rw [pipeRun, hm]
  simp [hrole, h0, hp, hq, htok, henf, he1, he2m, hlu]

theorem toolRun_unresolved (v : Valves) (env : Env) (np : Str → Str × Option Str)
    (tq q : Str) (ins : Option Str) (e : Str)
    (htq : tq.isEmpty = false)
    (htp : toolParseUserInput np tq = (q, ins))
    (hq : shortQueryCheck q = false)
    (htok : (pyStrip v.bearer_token).isEmpty = false)
    (henf : v.enforce_permissions = true)
    (he1 : e.isEmpty = false) (he3 : (pyStrip e).isEmpty = false)
    (hgn : env.ldapGuid e = Option.none) :
    toolRun v env np tq (some e) = toolSearchPhase v env q ins Option.none [.ldap e] := by
  have hlu : toolLookupCollectionId env (some e) = (Option.none, [.ldap e]) := by
    rw [toolLookupCollectionId, lookupUserGuid]
    simp [he1, he3, hgn]
  rw [toolRun]
  simp [htq, htp, hq, htok, henf, hlu]

theorem toolRun_resolved (v : Valves) (env : Env) (np : Str → Str × Option Str)
    (tq q : Str) (ins : Option Str) (e g s : Str)
    (htq : tq.isEmpty = false)
    (htp : toolParseUserInput np tq = (q, ins))
    (hq : shortQueryCheck q = false)
    (htok : (pyStrip v.bearer_token).isEmpty = false)
    (henf : v.enforce_permissions = true)
    (he1 : e.isEmpty = false) (he3 : (pyStrip e).isEmpty = false)
    (hg1 : env.ldapGuid e = some g) (hg2 : g.isEmpty = false)
    (hs1 : env.collectionId g = some s) :
    toolRun v env np tq (some e)
      = toolSearchPhase v env q ins (some s) [.ldap e, .collections g] := by
  rw [toolRun]
  simp [htq, htp, hq, htok, henf,
    toolLookupCollectionId_resolved env e g s he1 he3 hg1 hg2 hs1]

theorem toolRun_unresolved_col (v : Valves) (env : Env) (np : Str → Str × Option Str)
    (tq q : Str) (ins : Option Str) (e g : Str)
    (htq : tq.isEmpty = false)
    (htp : toolParseUserInput np tq = (q, ins))
    (hq : shortQueryCheck q = false)
    (htok : (pyStrip v.bearer_token).isEmpty = false)
    (henf : v.enforce_permissions = true)
    (he1 : e.isEmpty = false) (he3 : (pyStrip e).isEmpty = false)
    (hg1 : env.ldapGuid e = some g) (hg2 : g.isEmpty = false)
    (hcn : env.collectionId g = Option.none) :
    toolRun v env np tq (some e)
      = toolSearchPhase v env q ins Option.none [.ldap e, .collections g] := by
  have hlu : toolLookupCollectionId env (some e)
      = (Option.none, [.ldap e, .collections g]) := by
    rw [toolLookupCollectionId, lookupUserGuid]
    simp [he1, he3, hg1, hg2, lookupCollection, hcn]
  rw [toolRun]
  simp [htq, htp, hq, htok, henf, hlu]

/-- C5 counterexample: the input a b contains only two non-whitespace
characters, yet the pipe does not return an input error and issues a
search request: the guard of the source strips only surrounding
whitespace, so the inner space counts toward the length of three. -/
theorem C5_counterexample :
    (("a b".toList.filter (fun c => !c.isWhitespace)).length < 3)
    ∧ pipeRun vOpen envUnresolved [⟨"user".toList, "a b".toList⟩] Option.none
        = (.noResults "a b".toList,
           [.search (mkSearchPayload vOpen "a b".toList Option.none)]) :=
  ⟨by decide, rfl⟩

/-- C5 amended: for every request whose parsed search text is falsy or
shorter than three characters after stripping surrounding whitespace,
both entry points return the short-query input error and issue no
network call at all. -/
theorem C5_short_query_amended (v : Valves) (env : Env) (messages : List Msg)
    (userEmail : Option Str) (msg : Msg) (q : Str) (ins : Option Str)
    (np : Str → Str × Option Str) (tq : Str)
    (hm : messages.getLast? = some msg) (hrole : msg.role = "user".toList)
    (h0 : (pyStrip msg.content).isEmpty = false)
    (hp : parseUserInput (pyStrip msg.content) = (q, ins))
    (hshort : shortQueryCheck q = true)
    (htq : tq.isEmpty = false)
    (htp : toolParseUserInput np tq = (q, ins)) :
    pipeRun v env messages userEmail = (.errShortQuery q, [])
    ∧ toolRun v env np tq userEmail = (.toolShortQuery q, []) := by
  constructor
  · rw [pipeRun, hm]
    simp [hrole, h0, hp, hshort]
  · rw [toolRun]
    simp [htq, htp, hshort]

theorem C5_short_query_amended_witness :
    pipeRun vOpen envUnresolved [⟨"user".toList, "ab".toList⟩] Option.none
      = (.errShortQuery "ab".toList, [])
    ∧ toolRun vOpen envUnresolved npIdentity "ab".toList Option.none
      = (.toolShortQuery "ab".toList, []) :=
  C5_short_query_amended vOpen envUnresolved [⟨"user".toList, "ab".toList⟩]
    Option.none ⟨"user".toList, "ab".toList⟩ "ab".toList Option.none npIdentity
    "ab".toList rfl rfl (by decide) (by decide) (by decide) (by decide) (by decide)

/-- C2: whenever a truthy collection scope has been resolved for the
request, the one search request either entry point issues carries the
inclusion filter binding collection_ids to exactly that scope, so no
search in such a request is unscoped. -/
theorem C2_scope_filter (v : Valves) (env : Env) (messages : List Msg)
    (msg : Msg) (q : Str) (ins : Option Str) (e g s : Str)
    (np : Str → Str × Option Str) (tq : Str)
    (hm : messages.getLast? = some msg) (hrole : msg.role = "user".toList)
    (h0 : (pyStrip msg.content).isEmpty = false)
    (hp : parseUserInput (pyStrip msg.content) = (q, ins))
    (hq : shortQueryCheck q = false)
    (htok : (pyStrip v.bearer_token).isEmpty = false)
    (henf : v.enforce_permissions = true)
    (he1 : e.isEmpty = false) (he2 : e.contains '@' = true)
    (he3 : (pyStrip e).isEmpty = false)
    (hg1 : env.ldapGuid e = some g) (hg2 : g.isEmpty = false)
    (hs1 : env.collectionId g = some s) (hs2 : s.isEmpty = false)
    (htq : tq.isEmpty = false)
    (htp : toolParseUserInput np tq = (q, ins)) :
    (pipeRun v env messages (some e)).2
        = [.ldap e, .collections g, .search (mkSearchPayload v q (some s))]
    ∧ (toolRun v env np tq (some e)).2
        = [.ldap e, .collections g, .search (mkSearchPayload v q (some s))]
    ∧ (mkSearchPayload v q (some s)).filters = some ⟨[s]⟩ := by
  have hfilters : (mkSearchPayload v q (some s)).filters = some ⟨[s]⟩ := by
    simp [mkSearchPayload, hs2]
  refine ⟨?_, ?_, hfilters⟩
  · rw [pipeRun_resolved v env messages msg q ins e g s hm hrole h0 hp hq htok henf
      he1 he2 he3 hg1 hg2 hs1 hs2]
    rw [pipeSearchPhase_trace]
    rfl
  · rw [toolRun_resolved v env np tq q ins e g s htq htp hq htok henf he1 he3 hg1 hg2 hs1]
    rw [toolSearchPhase_trace]
    rfl

theorem C2_scope_filter_witness :
    (pipeRun vEnforced envResolved [⟨"user".toList, "alpha beta".toList⟩]
        (some "user@example.com".toList)).2
      = [.ldap "user@example.com".toList,
         .collections "11111111-2222-3333-4444-555555555555".toList,
         .search (mkSearchPayload vEnforced "alpha beta".toList
            (some "collection-9".toList))]
    ∧ (toolRun vEnforced envResolved npIdentity "alpha beta".toList
        (some "user@example.com".toList)).2
      = [.ldap "user@example.com".toList,
         .collections "11111111-2222-3333-4444-555555555555".toList,
         .search (mkSearchPayload vEnforced "alpha beta".toList
            (some "collection-9".toList))]
    ∧ (mkSearchPayload vEnforced "alpha beta".toList
        (some "collection-9".toList)).filters = some ⟨["collection-9".toList]⟩ :=
  C2_scope_filter vEnforced envResolved [⟨"user".toList, "alpha beta".toList⟩]
    ⟨"user".toList, "alpha beta".toList⟩ "alpha beta".toList Option.none
    "user@example.com".toList "11111111-2222-3333-4444-555555555555".toList
    "collection-9".toList npIdentity "alpha beta".toList
    rfl rfl (by decide) (by decide) (by decide) (by decide) rfl
    (by decide) (by decide) (by decide) rfl (by decide) rfl (by decide)
    (by decide) (by decide)

/-- C1 counterexample: with permission enforcement on and an identity that
resolves to no directory GUID, the tool entry point does not return an
access-denied outcome and does issue a search request, without any
collection filter. -/
theorem C1_counterexample :
    toolRun vEnforced envUnresolved npIdentity
        "---\nsearch: budget report\n---".toList (some "user@example.com".toList)
      = (.toolNoResults "budget report".toList,
         [.ldap "user@example.com".toList,
          .search (mkSearchPayload vEnforced "budget report".toList Option.none)])
    ∧ (mkSearchPayload vEnforced "budget report".toList Option.none).filters
        = Option.none :=
  ⟨rfl, rfl⟩

/-- C1 amended: with permission enforcement enabled, the pipe entry point
returns the access-denied outcome, distinct from the search-error and
empty-result outcomes, and issues no search request, both when the
identity resolves to no directory GUID and when the GUID resolves to no
collection; the tool entry point instead proceeds in those cases and
issues the search without any collection filter. -/
theorem C1_denial_amended (v : Valves) (env : Env) (messages : List Msg)
    (msg : Msg) (q : Str) (ins : Option Str) (e : Str)
    (np : Str → Str × Option Str) (tq : Str)
    (hm : messages.getLast? = some msg) (hrole : msg.role = "user".toList)
    (h0 : (pyStrip msg.content).isEmpty = false)
    (hp : parseUserInput (pyStrip msg.content) = (q, ins))
    (hq : shortQueryCheck q = false)
    (htok : (pyStrip v.bearer_token).isEmpty = false)
    (henf : v.enforce_permissions = true)
    (he1 : e.isEmpty = false) (he2 : e.contains '@' = true)
    (he3 : (pyStrip e).isEmpty = false)
    (htq : tq.isEmpty = false)
    (htp : toolParseUserInput np tq = (q, ins)) :
    (env.ldapGuid e = Option.none →
        pipeRun v env messages (some e) = (.accessDeniedNoCollection e, [.ldap e]))
    ∧ (∀ g, env.ldapGuid e = some g → g.isEmpty = false →
        env.collectionId g = Option.none →
        pipeRun v env messages (some e)
          = (.accessDeniedNoCollection e, [.ldap e, .collections g]))
    ∧ (∀ m', POutcome.accessDeniedNoCollection e ≠ .searchError m')
    ∧ (∀ q', POutcome.accessDeniedNoCollection e ≠ .noResults q')
    ∧ (∀ p, NetCall.search p ∉ ([.ldap e] : List NetCall))
    ∧ (∀ p g, NetCall.search p ∉ ([.ldap e, .collections g] : List NetCall))
    ∧ (env.ldapGuid e = Option.none →
        (toolRun v env np tq (some e)).2
          = [.ldap e, .search (mkSearchPayload v q Option.none)]
        ∧ (mkSearchPayload v q Option.none).filters = Option.none)
    ∧ (∀ g, env.ldapGuid e = some g → g.isEmpty = false →
        env.collectionId g = Option.none →
        (toolRun v env np tq (some e)).2
          = [.ldap e, .collections g, .search (mkSearchPayload v q Option.none)]
        ∧ (mkSearchPayload v q Option.none).filters = Option.none) := by
  refine ⟨fun hgn => pipeRun_denied_ldap v env messages msg q ins e hm hrole h0 hp hq
      htok henf he1 he2 he3 hgn,
    fun g hg1 hg2 hcn => pipeRun_denied_col v env messages msg q ins e g hm hrole h0 hp
      hq htok henf he1 he2 he3 hg1 hg2 hcn,
    fun m' h => POutcome.noConfusion h,
    fun q' h => POutcome.noConfusion h,
    fun p hmem => by simp at hmem,
    fun p g hmem => by simp at hmem,
    fun hgn => ?_,
    fun g hg1 hg2 hcn => ?_⟩
  · constructor
    · rw [toolRun_unresolved v env np tq q ins e htq htp hq htok henf he1 he3 hgn,
        toolSearchPhase_trace]
      rfl
    · simp [mkSearchPayload]
  · constructor
    · rw [toolRun_unresolved_col v env np tq q ins e g htq htp hq htok henf he1 he3
        hg1 hg2 hcn, toolSearchPhase_trace]
      rfl
    · simp [mkSearchPayload]

theorem C1_denial_amended_witness :
    pipeRun vEnforced envUnresolved [⟨"user".toList, "alpha beta".toList⟩]
        (some "user@example.com".toList)
      = (.accessDeniedNoCollection "user@example.com".toList,
         [.ldap "user@example.com".toList])
    ∧ (toolRun vEnforced envUnresolved npIdentity "alpha beta".toList
        (some "user@example.com".toList)).2
      = [.ldap "user@example.com".toList,
         .search (mkSearchPayload vEnforced "alpha beta".toList Option.none)]
    ∧ (mkSearchPayload vEnforced "alpha beta".toList Option.none).filters
        = Option.none
    ∧ pipeRun vEnforced envGuidOnly [⟨"user".toList, "alpha beta".toList⟩]
        (some "user@example.com".toList)
      = (.accessDeniedNoCollection "user@example.com".toList,
         [.ldap "user@example.com".toList,
          .collections "11111111-2222-3333-4444-555555555555".toList])
    ∧ (toolRun vEnforced envGuidOnly npIdentity "alpha beta".toList
        (some "user@example.com".toList)).2
      = [.ldap "user@example.com".toList,
         .collections "11111111-2222-3333-4444-555555555555".toList,
         .search (mkSearchPayload vEnforced "alpha beta".toList Option.none)] := by
  have full1 := C1_denial_amended vEnforced envUnresolved
    [⟨"user".toList, "alpha beta".toList⟩] ⟨"user".toList, "alpha beta".toList⟩
    "alpha beta".toList Option.none "user@example.com".toList npIdentity
    "alpha beta".toList rfl rfl (by decide) (by decide) (by decide) (by decide)
    rfl (by decide) (by decide) (by decide) (by decide) (by decide)
  have full2 := C1_denial_amended vEnforced envGuidOnly
    [⟨"user".toList, "alpha beta".toList⟩] ⟨"user".toList, "alpha beta".toList⟩
    "alpha beta".toList Option.none "user@example.com".toList npIdentity
    "alpha beta".toList rfl rfl (by decide) (by decide) (by decide) (by decide)
    rfl (by decide) (by decide) (by decide) (by decide) (by decide)
  exact ⟨full1.1 rfl, (full1.2.2.2.2.2.2.1 rfl).1, (full1.2.2.2.2.2.2.1 rfl).2,
    full2.2.1 "11111111-2222-3333-4444-555555555555".toList rfl (by decide) rfl,
    (full2.2.2.2.2.2.2.2 "11111111-2222-3333-4444-555555555555".toList rfl
      (by decide) rfl).1⟩

theorem hexDigitChar_mem : ∀ k < 16, hexDigitChar k ∈ hexCharset := by decide

theorem hexCharset_facts :
    ∀ c ∈ hexCharset, isHexChar c = true ∧ c.toLower = c ∧ c.isWhitespace = false
      ∧ (c == dash) = false ∧ (c == ':') = false ∧ bracesChars.contains c = false := by
  decide

theorem byteHex_mem (n : Nat) : ∀ c ∈ byteHex n, c ∈ hexCharset := by
  intro c hc
  rw [byteHex] at hc
  simp only [List.mem_cons, List.not_mem_nil, or_false] at hc
  rcases hc with rfl | rfl
  · exact hexDigitChar_mem _ (Nat.mod_lt _ (by omega))
  · exact hexDigitChar_mem _ (Nat.mod_lt _ (by omega))

theorem bytesHex_mem (b : List Nat) : ∀ c ∈ bytesHex b, c ∈ hexCharset := by
  induction b with
  | nil => intro c hc; exact absurd hc (List.not_mem_nil c)
  | cons n rest ih =>
    intro c hc
    rw [bytesHex] at hc
    rcases List.mem_append.mp hc with h | h
    · exact byteHex_mem n c h
    · exact ih c h

theorem bytesHex_length (b : List Nat) : (bytesHex b).length = 2 * b.length := by
  induction b with
  | nil => rfl
  | cons n rest ih =>
    rw [bytesHex, List.length_append, ih]
    simp [byteHex]
    omega

theorem canonical_mem (hh : Str) : ∀ c ∈ uuidCanonical hh, c ∈ hh ∨ c = dash := by
  intro c hc
  rw [uuidCanonical] at hc
  rcases List.mem_append.mp hc with h | h
  · exact Or.inl (List.take_subset _ _ h)
  rcases List.mem_cons.mp h with rfl | h
  · exact Or.inr rfl
  rcases List.mem_append.mp h with h | h
  · exact Or.inl (List.drop_subset _ _ (List.take_subset _ _ h))
  rcases List.mem_cons.mp h with rfl | h
  · exact Or.inr rfl
  rcases List.mem_append.mp h with h | h
  · exact Or.inl (List.drop_subset _ _ (List.take_subset _ _ h))
  rcases List.mem_cons.mp h with rfl | h
  · exact Or.inr rfl
  rcases List.mem_append.mp h with h | h
  · exact Or.inl (List.drop_subset _ _ (List.take_subset _ _ h))
  rcases List.mem_cons.mp h with rfl | h
  · exact Or.inr rfl
  · exact Or.inl (List.drop_subset _ _ h)

theorem dropWhile_eq_self_of_all (P : Char → Bool) (s : Str)
    (h : ∀ c ∈ s, P c = false) : s.dropWhile P = s := by
  cases s with
  | nil => rfl
  | cons a as => rw [List.dropWhile_cons_of_neg]
                 simp [h a (List.mem_cons_self a as)]

theorem pyStrip_eq_self (s : Str) (h : ∀ c ∈ s, c.isWhitespace = false) : pyStrip s = s := by
  rw [pyStrip, dropWhile_eq_self_of_all _ s h,
    dropWhile_eq_self_of_all _ s.reverse (fun c hc => h c (List.mem_reverse.mp hc)),
    List.reverse_reverse]

theorem pyStripChars_eq_self (cs : List Char) (s : Str)
    (h : ∀ c ∈ s, cs.contains c = false) : pyStripChars cs s = s := by
  rw [pyStripChars, pyDropSet, dropWhile_eq_self_of_all _ s h,
    dropWhile_eq_self_of_all _ s.reverse (fun c hc => h c (List.mem_reverse.mp hc)),
    List.reverse_reverse]

theorem strPfx_subset (p l : Str) (h : strPfx p l = true) : ∀ x ∈ p, x ∈ l := by
  induction p generalizing l with
  | nil => intro x hx; exact absurd hx (List.not_mem_nil x)
  | cons a as ih =>
    cases l with
    | nil => exact absurd h (by rw [strPfx]; simp)
    | cons b bs =>
      rw [strPfx, Bool.and_eq_true] at h
      intro x hx
      rcases List.mem_cons.mp hx with rfl | hx
      · rw [List.mem_cons]
        exact Or.inl (by simpa using h.1)
      · exact List.mem_cons_of_mem b (ih bs h.2 x hx)

theorem removeAllGo_eq_self (p : Str) (c₀ : Char) (hc : c₀ ∈ p) :
    ∀ fuel (s : Str), c₀ ∉ s → removeAllGo p fuel s = s := by
  intro fuel
  induction fuel with
  | zero => intro s _; cases s <;> rfl
  | succ n ih =>
    intro s hs
    cases s with
    | nil => rfl
    | cons c rest =>
      have hbf : (decide (0 < p.length) && strPfx p (c :: rest)) = false := by
        cases hsp : strPfx p (c :: rest) with
        | true => exact absurd (strPfx_subset p (c :: rest) hsp c₀ hc) hs
        | false => simp
      rw [removeAllGo, if_neg (by rw [hbf]; exact Bool.false_ne_true)]
      have : c₀ ∉ rest := fun h => hs (List.mem_cons_of_mem c h)
      rw [ih rest this]

theorem removeAll_eq_self (p s : Str) (c₀ : Char) (hc : c₀ ∈ p) (hs : c₀ ∉ s) :
    removeAll p s = s :=
  removeAllGo_eq_self p c₀ hc s.length s hs

theorem canonical_parts (l : Str) :
    l.take 8 ++ ((l.drop 8).take 4 ++ ((l.drop 12).take 4 ++ ((l.drop 16).take 4
      ++ l.drop 20))) = l := by
  have e1 : (l.drop 16).drop 4 = l.drop 20 := by rw [List.drop_drop]
  have e2 : (l.drop 12).drop 4 = l.drop 16 := by rw [List.drop_drop]
  have e3 : (l.drop 8).drop 4 = l.drop 12 := by rw [List.drop_drop]
  rw [← e1, List.take_append_drop, ← e2, List.take_append_drop, ← e3,
    List.take_append_drop, List.take_append_drop]

theorem canonical_filter_dash (hh : Str) (h : ∀ c ∈ hh, (c == dash) = false) :
    (uuidCanonical hh).filter (fun c => c != dash) = hh := by
  have hseg : ∀ (seg : Str), (∀ c ∈ seg, c ∈ hh) → seg.filter (fun c => c != dash) = seg :=
    fun seg hsub => List.filter_eq_self.mpr (fun c hc => by
      rw [bne]
      rw [h c (hsub c hc)]
      rfl)
  rw [uuidCanonical]
  rw [List.filter_append, List.filter_cons]
  rw [List.filter_append, List.filter_cons]
  rw [List.filter_append, List.filter_cons]
  rw [List.filter_append, List.filter_cons]
  have hdash : (dash != dash) = false := by decide
  rw [hdash]
  simp only [Bool.false_eq_true, if_false]
  rw [hseg _ (fun c hc => List.take_subset _ _ hc),
    hseg _ (fun c hc => List.drop_subset _ _ (List.take_subset _ _ hc)),
    hseg _ (fun c hc => List.drop_subset _ _ (List.take_subset _ _ hc)),
    hseg _ (fun c hc => List.drop_subset _ _ (List.take_subset _ _ hc)),
    hseg _ (fun c hc => List.drop_subset _ _ hc)]
  exact canonical_parts hh

theorem uuidFromHexStr_canonical (hh : Str) (hlen : hh.length = 32)
    (hmem : ∀ c ∈ hh, c ∈ hexCharset) :
    uuidFromHexStr (uuidCanonical hh) = some (uuidCanonical hh) := by
  have hcolon : ':' ∉ uuidCanonical hh := by
    intro hc
    rcases canonical_mem hh ':' hc with h | h
    · exact absurd ((hexCharset_facts ':' (hmem ':' h)).2.2.2.2.1) (by decide)
    · exact absurd h (by decide)
  have hbrace : ∀ c ∈ uuidCanonical hh, bracesChars.contains c = false := by
    intro c hc
    rcases canonical_mem hh c hc with h | rfl
    · exact (hexCharset_facts c (hmem c h)).2.2.2.2.2
    · decide
  have hurn : removeAll urnPat (uuidCanonical hh) = uuidCanonical hh :=
    removeAll_eq_self _ _ ':' (by decide) hcolon
  have huuid : removeAll uuidPat (uuidCanonical hh) = uuidCanonical hh :=
    removeAll_eq_self _ _ ':' (by decide) hcolon
  have hstrip : pyStripChars bracesChars (uuidCanonical hh) = uuidCanonical hh :=
    pyStripChars_eq_self _ _ hbrace
  have hfil : (uuidCanonical hh).filter (fun c => c != dash) = hh :=
    canonical_filter_dash hh (fun c hc => (hexCharset_facts c (hmem c hc)).2.2.2.1)
  have hall : hh.all isHexChar = true :=
    List.all_eq_true.mpr (fun c hc => (hexCharset_facts c (hmem c hc)).1)
  have hlower : hh.map Char.toLower = hh := by
    have hid : ∀ c ∈ hh, Char.toLower c = c :=
      fun c hc => (hexCharset_facts c (hmem c hc)).2.1
    calc hh.map Char.toLower = hh.map id := List.map_congr_left hid
    _ = hh := List.map_id hh
  rw [uuidFromHexStr]
  simp only [hurn, huuid, hstrip, hfil, hlen, hall, hlower, Bool.and_true, decide_True]
  simp

theorem stripChars_wrap (s : Str) (hne : s ≠ [])
    (h : ∀ c ∈ s, bracesChars.contains c = false) :
    pyStripChars bracesChars (Char.ofNat 123 :: (s ++ [Char.ofNat 125])) = s := by
  obtain ⟨a, as, rfl⟩ := List.exists_cons_of_ne_nil hne
  rw [pyStripChars, pyDropSet]
  rw [List.dropWhile_cons_of_pos (by decide)]
  rw [List.cons_append]
  rw [List.dropWhile_cons_of_neg (by simpa using h a (List.mem_cons_self a as))]
  rw [show (a :: (as ++ [Char.ofNat 125])).reverse
      = Char.ofNat 125 :: (a :: as).reverse from by simp]
  rw [List.dropWhile_cons_of_pos (by decide)]
  rw [dropWhile_eq_self_of_all _ _ (fun c hc => h c (List.mem_reverse.mp hc))]
  rw [List.reverse_reverse]

/-- C4 counterexample: a canonical UUID string value normalizes in the
pipe, but the identity resolution of the tool handles only raw byte
values and returns nothing for the same string, so the three forms do
not all normalize under the cited tool resolver. -/
theorem C4_counterexample :
    normalizeGuidValue (.str "12345678-9abc-def0-1234-56789abcdef0".toList)
      = some "12345678-9ABC-DEF0-1234-56789ABCDEF0".toList
    ∧ normalizeGuidValueTool (.str "12345678-9abc-def0-1234-56789abcdef0".toList)
      = Option.none :=
  ⟨by decide, rfl⟩

/-- C4 amended: the pipe resolver normalizes a raw 16-byte value, the
canonical UUID string form, the brace-wrapped string form, and a
one-element list of either to the same uppercase canonical UUID string,
and yields nothing for non-conforming values (non-string non-byte
scalars, empty lists, byte values of the wrong length, non-UUID text);
the tool resolver normalizes only the raw byte form and yields nothing
for every string or list value. -/
theorem C4_guid_normalization_amended (b : List Nat) (hb16 : b.length = 16)
    (hbv : ∀ n ∈ b, n < 256) :
    normalizeGuidValue (.bytes b) = some (pyUpper (uuidCanonical (bytesHex b)))
    ∧ normalizeGuidValue (.str (uuidCanonical (bytesHex b)))
        = some (pyUpper (uuidCanonical (bytesHex b)))
    ∧ normalizeGuidValue (.str (Char.ofNat 123 :: (uuidCanonical (bytesHex b)
        ++ [Char.ofNat 125]))) = some (pyUpper (uuidCanonical (bytesHex b)))
    ∧ normalizeGuidValue (.list [.bytes b]) = some (pyUpper (uuidCanonical (bytesHex b)))
    ∧ normalizeGuidValue (.list [.str (uuidCanonical (bytesHex b))])
        = some (pyUpper (uuidCanonical (bytesHex b)))
    ∧ (∀ n : Int, normalizeGuidValue (.int n) = Option.none)
    ∧ normalizeGuidValue PVal.none = Option.none
    ∧ normalizeGuidValue (.list []) = Option.none
    ∧ (∀ b2 : List Nat, b2.length ≠ 16 → normalizeGuidValue (.bytes b2) = Option.none)
    ∧ normalizeGuidValue (.str "hello".toList) = Option.none
    ∧ normalizeGuidValueTool (.bytes b) = some (pyUpper (uuidCanonical (bytesHex b)))
    ∧ (∀ s : Str, normalizeGuidValueTool (.str s) = Option.none)
    ∧ (∀ l : List PVal, normalizeGuidValueTool (.list l) = Option.none) := by
  have hhmem := bytesHex_mem b
  have hhlen : (bytesHex b).length = 32 := by rw [bytesHex_length, hb16]
  have hcanonb : uuidFromBytes b = some (uuidCanonical (bytesHex b)) := by
    rw [uuidFromBytes, if_pos hb16]
  have hbfree : ∀ c ∈ uuidCanonical (bytesHex b), bracesChars.contains c = false := by
    intro c hc
    rcases canonical_mem _ c hc with h | rfl
    · exact (hexCharset_facts c (hhmem c h)).2.2.2.2.2
    · decide
  have hwfree : ∀ c ∈ uuidCanonical (bytesHex b), c.isWhitespace = false := by
    intro c hc
    rcases canonical_mem _ c hc with h | rfl
    · exact (hexCharset_facts c (hhmem c h)).2.2.1
    · decide
  have hbytes : (uuidFromBytes b).map pyUpper = some (pyUpper (uuidCanonical (bytesHex b))) := by
    rw [hcanonb]
    rfl
  have hstr : (uuidFromHexStr (pyStrip (pyStripChars bracesChars
      (uuidCanonical (bytesHex b))))).map pyUpper
      = some (pyUpper (uuidCanonical (bytesHex b))) := by
    rw [pyStripChars_eq_self _ _ hbfree, pyStrip_eq_self _ hwfree,
      uuidFromHexStr_canonical _ hhlen hhmem]
    rfl
  have hnnil : uuidCanonical (bytesHex b) ≠ [] :=
    List.ne_nil_of_mem (show dash ∈ uuidCanonical (bytesHex b) from by
      rw [uuidCanonical]
      exact List.mem_append_right _ (List.mem_cons_self _ _))
  have hwrap : (uuidFromHexStr (pyStrip (pyStripChars bracesChars
      (Char.ofNat 123 :: (uuidCanonical (bytesHex b) ++ [Char.ofNat 125]))))).map pyUpper
      = some (pyUpper (uuidCanonical (bytesHex b))) := by
    rw [stripChars_wrap _ hnnil hbfree, pyStrip_eq_self _ hwfree,
      uuidFromHexStr_canonical _ hhlen hhmem]
    rfl
  refine ⟨hbytes, hstr, hwrap, hbytes, hstr, fun n => rfl, rfl, rfl, ?_, by decide,
    hbytes, fun s => rfl, fun l => ?_⟩
  · intro b2 hb2
    show (uuidFromBytes b2).map pyUpper = Option.none
    rw [uuidFromBytes, if_neg hb2]
    rfl
  · cases l with
    | nil => rfl
    | cons x xs => rfl

theorem C4_guid_normalization_amended_witness :
    normalizeGuidValue (.bytes [18, 52, 86, 120, 154, 188, 222, 240,
        18, 52, 86, 120, 154, 188, 222, 240])
      = some (pyUpper (uuidCanonical (bytesHex [18, 52, 86, 120, 154, 188, 222, 240,
        18, 52, 86, 120, 154, 188, 222, 240])))
    ∧ normalizeGuidValueTool (.bytes [18, 52, 86, 120, 154, 188, 222, 240,
        18, 52, 86, 120, 154, 188, 222, 240])
      = some (pyUpper (uuidCanonical (bytesHex [18, 52, 86, 120, 154, 188, 222, 240,
        18, 52, 86, 120, 154, 188, 222, 240]))) := by
  have full := C4_guid_normalization_amended
    [18, 52, 86, 120, 154, 188, 222, 240, 18, 52, 86, 120, 154, 188, 222, 240]
    (by decide) (by decide)
  exact ⟨full.1, full.2.2.2.2.2.2.2.2.2.2.1⟩
